import Mathlib

/-!
Verification of the retrieval-strategy engine and query plumbing of the
askPdfVideoBackendOpenAI service (files `app/qdrant_utils.py` and
`app/main.py`), as a shallow embedding.

External collaborators (the Qdrant vector store, the embedding model, the
Azure OpenAI completion call, and Python stdlib pieces such as
`urllib.parse` and `str.join`) are modelled as explicit function
parameters or small Lean functions that follow their documented
semantics.  Similarity scores (Python floats) are modelled as rationals;
Python dicts are modelled by first-encounter key order, which is what
insertion-ordered dicts give the code.
-/

namespace AskPdf

/-- Chunk of source text with its originating document identifier, the
`Document(page_content, metadata={"source": ...})` shape used throughout
the repository. -/
structure Chunk where
  content : String
  source : String
deriving DecidableEq, Repr

/-- Similarity/distance score attached to a chunk by
`similarity_search_with_score` (lower is better). -/
abbrev Score := ℚ

/-- A `(Document, score)` pair as returned by
`vectorstore.similarity_search_with_score`. -/
abbrev ScoredChunk := Chunk × Score

/-- Output dictionary of `smart_document_search`; `none` fields model
keys absent from the returned Python dict. -/
structure RetrievalResult where
  chunks : List Chunk
  strategy_used : String
  primary_source : Option String := none
  sources_used : Option (List String) := none
  document_scores : Option (List (String × Score)) := none
deriving DecidableEq, Repr

/-- Distinct keys in first-encounter order: the key order of a Python
dict built by inserting along the list. -/
def dedupKeys (l : List String) : List String :=
  l.foldl (fun acc s => if s ∈ acc then acc else acc ++ [s]) []

/-- Group of scored chunks sharing source `s`, in original batch order:
the list built up at `doc_chunks[source].append(doc)` /
`doc_groups[source].append((doc, score))`. -/
def groupFor (rc : List ScoredChunk) (s : String) : List ScoredChunk :=
  rc.filter (fun c => c.1.source == s)

/-- Scores of the group for source `s` (`doc_scores[source]`). -/
def scoresFor (rc : List ScoredChunk) (s : String) : List Score :=
  (groupFor rc s).map Prod.snd

/-- Chunks of the group for source `s` (`doc_chunks[source]`). -/
def chunksFor (rc : List ScoredChunk) (s : String) : List Chunk :=
  (groupFor rc s).map Prod.fst

/-- Arithmetic mean, modelling `np.mean` on a nonempty score list. -/
def mean (l : List Score) : Score :=
  l.sum / l.length

/-- Python `min(l)` on a nonempty list (`0` on the empty list, where the
code would raise instead). -/
def listMin : List Score → Score
  | [] => 0
  | x :: xs => xs.foldl min x

/-- Fold kept by Python `min(iterable, key=f)`: replaces the current
best only on a strictly smaller key, so ties keep the earliest
element. -/
def foldPickMin (f : String → Score) (b : String) (l : List String) : String :=
  l.foldl (fun b y => if f y < f b then y else b) b

/-- Python `min(l, key=f)` on a list, `none` when it would raise on an
empty sequence. -/
def firstMinBy (f : String → Score) : List String → Option String
  | [] => none
  | x :: xs => some (foldPickMin f x xs)

/-- Fold kept by `Counter.most_common`: replaces the current best only
on a strictly larger count, so ties keep the earliest element. -/
def foldPickMax (f : String → ℕ) (b : String) (l : List String) : String :=
  l.foldl (fun b y => if f b < f y then y else b) b

/-- Number of occurrences of `s` in `l` (a `Counter` entry). -/
def countOf (l : List String) (s : String) : ℕ :=
  (l.filter (fun t => t == s)).length

/-- Models `Counter(sources).most_common(1)[0][0]`: the first-encountered
source of maximal count, `none` where the code would raise `IndexError`
on an empty list. -/
def mostCommonSource (sources : List String) : Option String :=
  match dedupKeys sources with
  | [] => none
  | x :: xs => some (foldPickMax (countOf sources) x xs)

/-- Stable insertion used by `sortByKey`: `x` goes after every element
whose key is `≤` its own, as Python's stable `sorted` places a
later-coming element. -/
def insertByKey {α β : Type} [LinearOrder β] (κ : α → β) (x : α) : List α → List α
  | [] => [x]
  | y :: ys => if κ y ≤ κ x then y :: insertByKey κ x ys else x :: y :: ys

/-- Python `sorted(l, key=κ)`: stable, ascending by key. -/
def sortByKey {α β : Type} [LinearOrder β] (κ : α → β) (l : List α) : List α :=
  l.foldl (fun acc x => insertByKey κ x acc) []

/-- Minimum score of the group for `s`
(`min([score for _, score in doc_groups[s]])`). -/
def srcMin (rc : List ScoredChunk) (s : String) : Score :=
  listMin (scoresFor rc s)

/-- Source order walked by the `multi_doc` loop:
`sorted(doc_groups.keys(), key=lambda x: min(...))`. -/
def multiDocOrder (rc : List ScoredChunk) : List String :=
  sortByKey (srcMin rc) (dedupKeys (rc.map (fun c => c.1.source)))

/-- Top two chunks of the group for `s`, sorted ascending by score:
`[doc for doc, _ in sorted(doc_groups[source], key=lambda x: x[1])[:2]]`. -/
def topTwo (rc : List ScoredChunk) (s : String) : List Chunk :=
  ((sortByKey Prod.snd (groupFor rc s)).take 2).map Prod.fst

/-- One iteration of the `multi_doc` accumulation loop, guarded by
`if len(sources_used) < 3`. -/
def multiDocStep (rc : List ScoredChunk) (st : List Chunk × List String) (s : String) :
    List Chunk × List String :=
  if st.2.length < 3 then (st.1 ++ topTwo rc s, st.2 ++ [s]) else st

/-- The full `multi_doc` accumulation loop over the ordered sources,
returning `(final_chunks, sources_used)`. -/
def multiDocLoop (rc : List ScoredChunk) : List Chunk × List String :=
  (multiDocOrder rc).foldl (multiDocStep rc) ([], [])

/-- Concatenation of the per-source top-two chunk groups along a source
list, the shape the `multi_doc` accumulation loop produces. -/
def flattenTops (rc : List ScoredChunk) : List String → List Chunk
  | [] => []
  | s :: rest => topTwo rc s ++ flattenTops rc rest

/-- Shallow embedding of `smart_document_search(query, k, strategy)`
from `app/qdrant_utils.py`.  The vector store is the parameter
`search`: `search q n` is `similarity_search_with_score(q, k=n)`, and
the score-less `similarity_search` used by the `single_source` branch is
its first projection.  `Except.error` models an uncaught Python
exception. -/
def smart_document_search (search : String → ℕ → List ScoredChunk)
    (query : String) (k : ℕ) (strategy : String) : Except String RetrievalResult :=
  if strategy == "best_match" then
    let rc := search query (k * 5)
    let srcs := dedupKeys (rc.map (fun c => c.1.source))
    match firstMinBy (fun s => mean (scoresFor rc s)) srcs with
    | none => Except.error "ValueError: min() arg is an empty sequence"
    | some best =>
        Except.ok
          { chunks := (chunksFor rc best).take k
            strategy_used := "best_match"
            primary_source := some best
            document_scores := some (srcs.map (fun s => (s, mean (scoresFor rc s)))) }
  else if strategy == "multi_doc" then
    let rc := search query (k * 3)
    let st := multiDocLoop rc
    Except.ok
      { chunks := st.1.take k
        strategy_used := "multi_doc"
        sources_used := some st.2 }
  else
    let docs := (search query k).map Prod.fst
    match mostCommonSource (docs.map Chunk.source) with
    | none => Except.error "IndexError: list index out of range"
    | some src =>
        Except.ok
          { chunks := docs.filter (fun d => d.source == src)
            strategy_used := "single_source"
            primary_source := some src }

/-- Join of the chunk contents with a paragraph break:
`"\n\n".join([doc.page_content for doc in context_chunks])` in
`ask_azure_openai` (`str.join` modelled by recursion). -/
def buildContext (chunks : List Chunk) : String :=
  match chunks with
  | [] => ""
  | [c] => c.content
  | c :: rest => c.content ++ "\n\n" ++ buildContext rest

/-- User prompt assembled by `ask_azure_openai`:
`f"Context:\n{context}\n\nQuestion: {query}\n\nAnswer:"`. -/
def promptFor (query : String) (chunks : List Chunk) : String :=
  "Context:\n" ++ buildContext chunks ++ "\n\nQuestion: " ++ query ++ "\n\nAnswer:"

/-- Shallow embedding of `ask_azure_openai(query, context_chunks)` from
`app/main.py`.  The Azure OpenAI chat-completion call is the parameter
`complete` (the fixed system message is constant, so only the user
prompt is passed); `Except.error` models any exception raised by the
external call, which the function's `except` branch converts into the
returned string. -/
def ask_azure_openai (complete : String → Except String String)
    (query : String) (context_chunks : List Chunk) : String :=
  match complete (promptFor query context_chunks) with
  | Except.ok answer => answer
  | Except.error e => "Error generating response: " ++ e

/-- Relevant fields of the result of Python's `urllib.parse.urlparse`. -/
structure ParsedUrl where
  hostname : Option String
  path : String
  query : String
deriving DecidableEq, Repr

/-- Longest prefix of characters satisfying `p`. -/
def charsTakeWhile (p : Char → Bool) : List Char → List Char
  | [] => []
  | c :: rest => if p c then c :: charsTakeWhile p rest else []

/-- Remainder after `charsTakeWhile p`. -/
def charsDropWhile (p : Char → Bool) : List Char → List Char
  | [] => []
  | c :: rest => if p c then charsDropWhile p rest else c :: rest

/-- Characters after the first `://`, if one occurs. -/
def afterSchemeSep : List Char → Option (List Char)
  | ':' :: '/' :: '/' :: rest => some rest
  | _ :: rest => afterSchemeSep rest
  | [] => none

/-- Split at every occurrence of the separator character, keeping empty
groups (the behavior of Python `str.split(sep)`). -/
def charsSplitOn (sep : Char) : List Char → List (List Char)
  | [] => [[]]
  | c :: rest =>
      if c == sep then [] :: charsSplitOn sep rest
      else
        match charsSplitOn sep rest with
        | [] => [[c]]
        | g :: gs => (c :: g) :: gs

/-- Join groups with the separator character (Python `sep.join`). -/
def charsJoin (sep : Char) : List (List Char) → List Char
  | [] => []
  | [g] => g
  | g :: gs => g ++ sep :: charsJoin sep gs

/-- Models the Python stdlib `urllib.parse.urlparse` (an external
collaborator) on `scheme://netloc/path?query` URLs, the shapes the
endpoints receive: `hostname` is the lowercased netloc (or `None` when
the URL has no `://`), `path` and `query` split at the first `?`. -/
def urlparse (url : String) : ParsedUrl :=
  match afterSchemeSep url.data with
  | some rest =>
      let netloc := charsTakeWhile (fun c => c != '/' && c != '?') rest
      let after := charsDropWhile (fun c => c != '/' && c != '?') rest
      { hostname := if netloc.isEmpty then none else some (String.mk (netloc.map Char.toLower))
        path := String.mk (charsTakeWhile (fun c => c != '?') after)
        query := String.mk
          (match charsDropWhile (fun c => c != '?') after with
            | '?' :: q => q
            | _ => []) }
  | none =>
      { hostname := none
        path := String.mk (charsTakeWhile (fun c => c != '?') url.data)
        query := String.mk
          (match charsDropWhile (fun c => c != '?') url.data with
            | '?' :: q => q
            | _ => []) }

/-- Models the Python stdlib `urllib.parse.parse_qs` (an external
collaborator) as the ordered key/value pairs of the query string; pairs
with blank values are dropped, as `parse_qs` does by default. -/
def parse_qs (q : String) : List (String × String) :=
  (charsSplitOn '&' q.data).filterMap (fun part =>
    match charsSplitOn '=' part with
    | [] => none
    | [_] => none
    | key :: rest =>
        let v := charsJoin '=' rest
        if v.isEmpty then none else some (String.mk key, String.mk v))

/-- Models Python `str.startswith` (external stdlib): character-level
test that the second string is an initial segment of the first. -/
def strStartsWith (s pre : String) : Bool :=
  List.isPrefixOf pre.data s.data

/-- Shallow embedding of `extract_video_id(url)` from `app/main.py`:
the `v` query parameter for the `youtube.com` host family, the path
segment for `youtu.be`, and otherwise the `ValueError` the function's
`except` branch re-raises (modelled as `Except.error`). -/
def extract_video_id (url : String) : Except String String :=
  let p := urlparse url
  if p.hostname = some "www.youtube.com" ∨ p.hostname = some "youtube.com" then
    match (parse_qs p.query).find? (fun kv => kv.1 == "v") with
    | some kv => Except.ok kv.2
    | none => Except.error ("Could not extract video ID from URL: " ++ url)
  else if p.hostname = some "youtu.be" then
    Except.ok (String.mk (p.path.data.drop 1))
  else
    Except.error ("Could not extract video ID from URL: " ++ url)

/-- Shallow embedding of `get_available_documents()` from
`app/qdrant_utils.py`.  The broad `similarity_search("", k=1000)` call
is the parameter `bigSearch`; `Except.error` is the exception its
`try` block catches, after which the function returns `[]`.  On success
it deduplicates the truthy sources and sorts them, modelling
`sorted(list(set(...)))`. -/
def get_available_documents (bigSearch : Except String (List Chunk)) : List String :=
  match bigSearch with
  | Except.ok docs =>
      sortByKey String.data
        (dedupKeys ((docs.map Chunk.source).filter (fun s => !(s == ""))))
  | Except.error _ => []

/-- Response body of the `/documents/` endpoint. -/
structure DocumentsResponse where
  documents : List String
  count : ℕ
deriving DecidableEq, Repr

/-- Shallow embedding of the `list_documents` endpoint from
`app/main.py`: its `try` block only calls `get_available_documents`,
which never raises, so the `HTTPException` branch (the `Except.error`
case of the result) is unreachable. -/
def list_documents (bigSearch : Except String (List Chunk)) : Except String DocumentsResponse :=
  let documents := get_available_documents bigSearch
  Except.ok { documents := documents, count := documents.length }

/-- Response body of the `/smart-query-all/` endpoint; `none` fields
model keys absent from the returned dict. -/
structure SmartQueryAllResponse where
  answer : String
  strategy_used : String
  content_type : String
  chunks_used : Option ℕ := none
  primary_source : Option String := none
  source_type : Option String := none
  sources_used : Option (List String) := none
  source_scores : Option (List (String × Score)) := none
deriving DecidableEq, Repr

/-- Content-type filter of `smart_query_all_content`: keep only video
sources (`startswith("video_")`) for `"video"`, only the rest for
`"pdf"`, everything otherwise. -/
def contentFiltered (content_type : String) (documents : List String) : List String :=
  if content_type == "pdf" then
    documents.filter (fun d => !(strStartsWith d "video_"))
  else if content_type == "video" then
    documents.filter (fun d => strStartsWith d "video_")
  else
    documents

/-- Shallow embedding of the `smart_query_all_content` endpoint from
`app/main.py`.  `bigSearch` feeds `get_available_documents`, `search`
is the vector store given to `smart_document_search`, and `complete`
the completion call given to `ask_azure_openai`; `Except.error` models
the endpoint's `HTTPException` re-raise. -/
def smart_query_all_content (bigSearch : Except String (List Chunk))
    (search : String → ℕ → List ScoredChunk) (complete : String → Except String String)
    (query : String) (k : ℕ) (strategy : String) (content_type : String) :
    Except String SmartQueryAllResponse :=
  let documents := get_available_documents bigSearch
  let filtered_docs := contentFiltered content_type documents
  if filtered_docs.isEmpty then
    Except.ok
      { answer := "No " ++ content_type ++ " content found in the database."
        strategy_used := strategy
        content_type := content_type }
  else
    match smart_document_search search query k strategy with
    | Except.error e => Except.error e
    | Except.ok sr =>
        if sr.chunks.isEmpty then
          Except.ok
            { answer := "No relevant information found in " ++ content_type ++
                " content for your query."
              strategy_used := strategy
              content_type := content_type }
        else
          Except.ok
            { answer := ask_azure_openai complete query sr.chunks
              strategy_used := sr.strategy_used
              content_type := content_type
              chunks_used := some sr.chunks.length
              primary_source := sr.primary_source
              source_type :=
                sr.primary_source.map (fun s => if strStartsWith s "video_" then "video" else "pdf")
              sources_used := sr.sources_used
              source_scores := sr.document_scores }

/-- Decidable equality of `Except` results, for evaluating the
embedding on concrete inputs. -/
instance {ε α : Type} [DecidableEq ε] [DecidableEq α] : DecidableEq (Except ε α) := fun a b =>
  match a, b with
  | Except.ok x, Except.ok y =>
      if h : x = y then Decidable.isTrue (by rw [h])
      else Decidable.isFalse (fun hc => h (Except.ok.inj hc))
  | Except.error x, Except.error y =>
      if h : x = y then Decidable.isTrue (by rw [h])
      else Decidable.isFalse (fun hc => h (Except.error.inj hc))
  | Except.ok _, Except.error _ => Decidable.isFalse (fun hc => Except.noConfusion hc)
  | Except.error _, Except.ok _ => Decidable.isFalse (fun hc => Except.noConfusion hc)

/-! Concrete chunks and stub collaborators used to exercise the
theorems on explicit inputs. -/

/-- Example chunk of source `A`. -/
def chA1 : Chunk := ⟨"alpha one", "A"⟩

/-- Second example chunk of source `A`. -/
def chA2 : Chunk := ⟨"alpha two", "A"⟩

/-- Example chunk of source `B`. -/
def chB1 : Chunk := ⟨"beta one", "B"⟩

/-- Second example chunk of source `B`. -/
def chB2 : Chunk := ⟨"beta two", "B"⟩

/-- Third example chunk of source `B`. -/
def chB3 : Chunk := ⟨"beta three", "B"⟩

/-- Example chunk of source `C`. -/
def chC1 : Chunk := ⟨"gamma one", "C"⟩

/-- Example chunk of source `D`. -/
def chD1 : Chunk := ⟨"delta one", "D"⟩

/-- Example chunk of a video source. -/
def chV1 : Chunk := ⟨"video words", "video_x.txt"⟩

/-- Stub vector store returning a fixed five-chunk batch over sources
`B`, `A`, `C`, with mean scores `B ↦ 7/2`, `A ↦ 2`, `C ↦ 4`. -/
def egSearch : String → ℕ → List ScoredChunk := fun _ _ =>
  [(chB1, 5), (chA1, 1), (chA2, 3), (chB2, 2), (chC1, 4)]

/-- Stub vector store with chunks from four distinct sources. -/
def egSearchFour : String → ℕ → List ScoredChunk := fun _ _ =>
  [(chA1, 1), (chA2, 2), (chB1, 3), (chB2, 4), (chC1, 5), (chD1, 6)]

/-- Stub vector store with one chunk each from two sources. -/
def egSearchTwo : String → ℕ → List ScoredChunk := fun _ _ =>
  [(chA1, 1), (chB1, 2)]

/-- Stub vector store with sources `{A: 3, B: 2}`. -/
def egSearchCount : String → ℕ → List ScoredChunk := fun _ _ =>
  [(chA1, 1), (chB1, 2), (chA2, 3), (chB2, 4), (⟨"alpha three", "A"⟩, 5)]

/-- Stub vector store returning no chunks. -/
def egSearchEmpty : String → ℕ → List ScoredChunk := fun _ _ => []

/-- Stub vector store returning only a video-source chunk. -/
def egSearchVideo : String → ℕ → List ScoredChunk := fun _ _ => [(chV1, 1)]

/-- Stub broad search (for `get_available_documents`) holding one PDF
source and one video source. -/
def egBig : Except String (List Chunk) := Except.ok [⟨"pdf words", "a.pdf"⟩, chV1]

/-- Stub broad search holding only a PDF source. -/
def egBigPdfOnly : Except String (List Chunk) := Except.ok [⟨"pdf words", "a.pdf"⟩]

/-- Stub completion call that answers. -/
def egCompleteOk : String → Except String String := fun _ => Except.ok "ANSWER"

/-- Stub completion call that fails. -/
def egCompleteErr : String → Except String String := fun _ => Except.error "timeout"

/-! Specification predicates for the three strategies, stated over the
embedding; the claim theorems prove them. -/

/-- What the `best_match` strategy is specified to do on the
over-fetched batch `search query (k*5)`: pick a source of minimal mean
score as `primary_source`, return at most `k` of its chunks in their
original relative batch order, and report every observed source's mean
score. -/
def BestMatchSpec (search : String → ℕ → List ScoredChunk) (query : String) (k : ℕ) : Prop :=
  ∃ r best, smart_document_search search query k "best_match" = Except.ok r ∧
    r.strategy_used = "best_match" ∧
    r.primary_source = some best ∧
    best ∈ (search query (k * 5)).map (fun c => c.1.source) ∧
    (∀ s ∈ (search query (k * 5)).map (fun c => c.1.source),
      mean (scoresFor (search query (k * 5)) best) ≤ mean (scoresFor (search query (k * 5)) s)) ∧
    r.chunks = (chunksFor (search query (k * 5)) best).take k ∧
    r.chunks.length ≤ k ∧
    (∀ c ∈ r.chunks, c.source = best) ∧
    List.Sublist r.chunks ((search query (k * 5)).map Prod.fst) ∧
    ∃ ds, r.document_scores = some ds ∧
      ds.map Prod.fst = dedupKeys ((search query (k * 5)).map (fun c => c.1.source)) ∧
      ∀ p ∈ ds, p.2 = mean (scoresFor (search query (k * 5)) p.1)

/-- What the `multi_doc` strategy is specified to do on the over-fetched
batch `search query (k*3)`: `sources_used` is an ordered list of at most
three distinct observed sources, ascending by group-minimum score; the
chunks are the concatenation of those sources' top-two groups truncated
to `k`, so each source contributes at most two chunks. -/
def MultiDocSpec (search : String → ℕ → List ScoredChunk) (query : String) (k : ℕ) : Prop :=
  ∃ r used, smart_document_search search query k "multi_doc" = Except.ok r ∧
    r.strategy_used = "multi_doc" ∧
    r.sources_used = some used ∧
    used.length = min 3 (dedupKeys ((search query (k * 3)).map (fun c => c.1.source))).length ∧
    used.Nodup ∧
    (∀ s ∈ used, s ∈ (search query (k * 3)).map (fun c => c.1.source)) ∧
    used.Pairwise (fun a b => srcMin (search query (k * 3)) a ≤ srcMin (search query (k * 3)) b) ∧
    r.chunks = (flattenTops (search query (k * 3)) used).take k ∧
    r.chunks.length ≤ k ∧
    (∀ s : String, (r.chunks.filter (fun c => c.source == s)).length ≤ 2) ∧
    (∀ c ∈ r.chunks, c.source ∈ used)

/-- What the `single_source` branch is specified to do on the fetched
batch `search query k`: `primary_source` is the first-encountered source
of maximal occurrence count among the fetched chunks, and exactly the
fetched chunks of that source are returned, in their original order. -/
def SingleSourceSpec (search : String → ℕ → List ScoredChunk) (query : String)
    (k : ℕ) (strategy : String) : Prop :=
  ∃ r src, smart_document_search search query k strategy = Except.ok r ∧
    r.strategy_used = "single_source" ∧
    r.primary_source = some src ∧
    (∃ pre post,
      dedupKeys (((search query k).map Prod.fst).map Chunk.source) = pre ++ src :: post ∧
      (∀ s ∈ pre, countOf (((search query k).map Prod.fst).map Chunk.source) s <
        countOf (((search query k).map Prod.fst).map Chunk.source) src) ∧
      (∀ s ∈ post, countOf (((search query k).map Prod.fst).map Chunk.source) s ≤
        countOf (((search query k).map Prod.fst).map Chunk.source) src)) ∧
    r.chunks = ((search query k).map Prod.fst).filter (fun d => d.source == src) ∧
    (∀ c ∈ r.chunks, c.source = src) ∧
    List.Sublist r.chunks ((search query k).map Prod.fst)

/-! Lemmas about the dict/Counter/min/sorted models. -/

theorem mem_dedup_fold (l acc : List String) (s : String) :
    s ∈ l.foldl (fun acc t => if t ∈ acc then acc else acc ++ [t]) acc ↔ s ∈ acc ∨ s ∈ l := by
  induction l generalizing acc with
  | nil => simp
  | cons x xs ih =>
      rw [List.foldl_cons, ih]
      by_cases hx : x ∈ acc
      · rw [if_pos hx]
        constructor
        · rintro (h | h)
          · exact Or.inl h
          · exact Or.inr (List.mem_cons_of_mem x h)
        · rintro (h | h)
          · exact Or.inl h
          · rcases List.mem_cons.mp h with rfl | h2
            · exact Or.inl hx
            · exact Or.inr h2
      · rw [if_neg hx]
        simp only [List.mem_append, List.mem_singleton, List.mem_cons]
        tauto

theorem mem_dedupKeys (l : List String) (s : String) : s ∈ dedupKeys l ↔ s ∈ l := by
  rw [dedupKeys, mem_dedup_fold]
  simp

theorem nodup_dedup_fold (l : List String) :
    ∀ acc : List String, acc.Nodup →
      (l.foldl (fun acc t => if t ∈ acc then acc else acc ++ [t]) acc).Nodup := by
  induction l with
  | nil => intro acc h; exact h
  | cons x xs ih =>
      intro acc h
      rw [List.foldl_cons]
      apply ih
      by_cases hx : x ∈ acc
      · rwa [if_pos hx]
      · rw [if_neg hx]
        refine List.Nodup.append h (List.nodup_singleton x) ?_
        intro a ha hb
        rw [List.mem_singleton.mp hb] at ha
        exact hx ha

theorem nodup_dedupKeys (l : List String) : (dedupKeys l).Nodup :=
  nodup_dedup_fold l [] List.nodup_nil

theorem dedupKeys_ne_nil (l : List String) (h : l ≠ []) : dedupKeys l ≠ [] := by
  intro hd
  rcases List.exists_mem_of_ne_nil l h with ⟨s, hs⟩
  have : s ∈ dedupKeys l := (mem_dedupKeys l s).mpr hs
  rw [hd] at this
  exact List.not_mem_nil s this

theorem foldPickMin_cons (f : String → Score) (b y : String) (ys : List String) :
    foldPickMin f b (y :: ys) = foldPickMin f (if f y < f b then y else b) ys := rfl

theorem foldPickMax_cons (f : String → ℕ) (b y : String) (ys : List String) :
    foldPickMax f b (y :: ys) = foldPickMax f (if f b < f y then y else b) ys := rfl

theorem foldPickMin_mem (f : String → Score) :
    ∀ (l : List String) (b : String), foldPickMin f b l ∈ b :: l := by
  intro l
  induction l with
  | nil => intro b; exact List.mem_singleton.mpr rfl
  | cons y ys ih =>
      intro b
      rw [foldPickMin_cons]
      by_cases h : f y < f b
      · rw [if_pos h]
        exact List.mem_cons_of_mem b (ih y)
      · rw [if_neg h]
        rcases List.mem_cons.mp (ih b) with h2 | h2
        · rw [h2]; exact List.mem_cons_self _ _
        · exact List.mem_cons_of_mem _ (List.mem_cons_of_mem _ h2)

theorem foldPickMin_le (f : String → Score) :
    ∀ (l : List String) (b : String), ∀ y ∈ b :: l, f (foldPickMin f b l) ≤ f y := by
  intro l
  induction l with
  | nil =>
      intro b y hy
      rcases List.mem_singleton.mp hy with rfl
      exact le_refl _
  | cons z zs ih =>
      intro b y hy
      rw [foldPickMin_cons]
      have hble : f (foldPickMin f (if f z < f b then z else b) zs) ≤
          f (if f z < f b then z else b) :=
        ih (if f z < f b then z else b) _ (List.mem_cons_self _ _)
      rcases List.mem_cons.mp hy with h1 | hy2
      · rw [h1]
        refine le_trans hble ?_
        by_cases h : f z < f b
        · rw [if_pos h]; exact le_of_lt h
        · rw [if_neg h]
      · rcases List.mem_cons.mp hy2 with h1 | hy3
        · rw [h1]
          refine le_trans hble ?_
          by_cases h : f z < f b
          · rw [if_pos h]
          · rw [if_neg h]; exact le_of_not_lt h
        · exact ih (if f z < f b then z else b) y (List.mem_cons_of_mem _ hy3)

theorem decomp_le {f : String → ℕ} {l₁ l₂ : List String} {r : String}
    (hpre : ∀ y ∈ l₁, f y < f r) (hpost : ∀ y ∈ l₂, f y ≤ f r) :
    ∀ y ∈ l₁ ++ r :: l₂, f y ≤ f r := by
  intro y hy
  rcases List.mem_append.mp hy with h | h
  · exact le_of_lt (hpre y h)
  · rcases List.mem_cons.mp h with rfl | h2
    · exact le_refl _
    · exact hpost y h2

theorem foldPickMax_split (f : String → ℕ) :
    ∀ (l : List String) (b : String),
      ∃ l₁ l₂, b :: l = l₁ ++ foldPickMax f b l :: l₂ ∧
        (∀ y ∈ l₁, f y < f (foldPickMax f b l)) ∧
        (∀ y ∈ l₂, f y ≤ f (foldPickMax f b l)) := by
  intro l
  induction l with
  | nil =>
      intro b
      exact ⟨[], [], rfl, by simp, by simp⟩
  | cons y ys ih =>
      intro b
      rw [foldPickMax_cons]
      by_cases h : f b < f y
      · rw [if_pos h]
        obtain ⟨l₁, l₂, hdec, hpre, hpost⟩ := ih y
        refine ⟨b :: l₁, l₂, ?_, ?_, hpost⟩
        · rw [List.cons_append, ← hdec]
        · intro z hz
          rcases List.mem_cons.mp hz with rfl | h2
          · have hy : f y ≤ f (foldPickMax f y ys) :=
              decomp_le hpre hpost y (hdec ▸ List.mem_cons_self _ _)
            exact lt_of_lt_of_le h hy
          · exact hpre z h2
      · rw [if_neg h]
        obtain ⟨l₁, l₂, hdec, hpre, hpost⟩ := ih b
        cases l₁ with
        | nil =>
            rcases List.cons.injEq .. ▸ hdec with ⟨hb, hys⟩
            refine ⟨[], y :: ys, ?_, by simp, ?_⟩
            · rw [List.nil_append, ← hb]
            · intro z hz
              rcases List.mem_cons.mp hz with rfl | h2
              · rw [← hb]; exact le_of_not_lt h
              · rw [hys] at h2
                exact hpost z h2
        | cons a l₁' =>
            rw [List.cons_append] at hdec
            rcases List.cons.injEq .. ▸ hdec with ⟨hb, hys⟩
            refine ⟨b :: y :: l₁', l₂, ?_, ?_, hpost⟩
            · rw [List.cons_append, List.cons_append, ← hys]
            · intro z hz
              rcases List.mem_cons.mp hz with rfl | h2
              · exact hb ▸ hpre a (List.mem_cons_self _ _)
              · rcases List.mem_cons.mp h2 with rfl | h3
                · exact lt_of_le_of_lt (le_of_not_lt h) (hb ▸ hpre a (List.mem_cons_self _ _))
                · exact hpre z (List.mem_cons_of_mem _ h3)

theorem foldPickMax_mem (f : String → ℕ) (l : List String) (b : String) :
    foldPickMax f b l ∈ b :: l := by
  obtain ⟨l₁, l₂, hdec, -, -⟩ := foldPickMax_split f l b
  rw [hdec]
  exact List.mem_append.mpr (Or.inr (List.mem_cons_self _ _))

theorem foldPickMax_max (f : String → ℕ) (l : List String) (b : String) :
    ∀ y ∈ b :: l, f y ≤ f (foldPickMax f b l) := by
  obtain ⟨l₁, l₂, hdec, hpre, hpost⟩ := foldPickMax_split f l b
  rw [hdec]
  exact decomp_le hpre hpost

theorem insertByKey_perm {α β : Type} [LinearOrder β] (κ : α → β) (x : α) :
    ∀ l : List α, (insertByKey κ x l).Perm (x :: l) := by
  intro l
  induction l with
  | nil => exact List.Perm.refl _
  | cons y ys ih =>
      rw [insertByKey]
      by_cases h : κ y ≤ κ x
      · rw [if_pos h]
        exact List.Perm.trans (List.Perm.cons y ih) (List.Perm.swap x y ys)
      · rw [if_neg h]

theorem sort_fold_perm {α β : Type} [LinearOrder β] (κ : α → β) :
    ∀ (l acc : List α), (l.foldl (fun acc x => insertByKey κ x acc) acc).Perm (l ++ acc) := by
  intro l
  induction l with
  | nil => intro acc; exact List.Perm.refl _
  | cons x xs ih =>
      intro acc
      rw [List.foldl_cons]
      refine List.Perm.trans (ih (insertByKey κ x acc)) ?_
      refine List.Perm.trans (List.Perm.append_left xs (insertByKey_perm κ x acc)) ?_
      exact List.perm_middle

theorem sortByKey_perm {α β : Type} [LinearOrder β] (κ : α → β) (l : List α) :
    (sortByKey κ l).Perm l := by
  have h := sort_fold_perm κ l []
  rwa [List.append_nil] at h

theorem insertByKey_pairwise {α β : Type} [LinearOrder β] (κ : α → β) (x : α) :
    ∀ l : List α, l.Pairwise (fun a b => κ a ≤ κ b) →
      (insertByKey κ x l).Pairwise (fun a b => κ a ≤ κ b) := by
  intro l
  induction l with
  | nil => intro _; exact List.pairwise_singleton _ _
  | cons y ys ih =>
      intro h
      rcases List.pairwise_cons.mp h with ⟨hy, hys⟩
      rw [insertByKey]
      by_cases hc : κ y ≤ κ x
      · rw [if_pos hc]
        refine List.pairwise_cons.mpr ⟨?_, ih hys⟩
        intro z hz
        rcases List.mem_cons.mp ((insertByKey_perm κ x ys).mem_iff.mp hz) with h2 | h2
        · rw [h2]; exact hc
        · exact hy z h2
      · rw [if_neg hc]
        have hx : κ x ≤ κ y := le_of_not_le hc
        refine List.pairwise_cons.mpr ⟨?_, h⟩
        intro z hz
        rcases List.mem_cons.mp hz with h2 | h2
        · rw [h2]; exact hx
        · exact le_trans hx (hy z h2)

theorem sort_fold_pairwise {α β : Type} [LinearOrder β] (κ : α → β) :
    ∀ (l acc : List α), acc.Pairwise (fun a b => κ a ≤ κ b) →
      (l.foldl (fun acc x => insertByKey κ x acc) acc).Pairwise (fun a b => κ a ≤ κ b) := by
  intro l
  induction l with
  | nil => intro acc h; exact h
  | cons x xs ih =>
      intro acc h
      rw [List.foldl_cons]
      exact ih _ (insertByKey_pairwise κ x acc h)

theorem sortByKey_pairwise {α β : Type} [LinearOrder β] (κ : α → β) (l : List α) :
    (sortByKey κ l).Pairwise (fun a b => κ a ≤ κ b) :=
  sort_fold_pairwise κ l [] List.Pairwise.nil

theorem multiDoc_fold_eq (rc : List ScoredChunk) :
    ∀ (l : List String) (acc : List Chunk) (used : List String),
      l.foldl (multiDocStep rc) (acc, used) =
        (acc ++ flattenTops rc (l.take (3 - used.length)),
          used ++ l.take (3 - used.length)) := by
  intro l
  induction l with
  | nil => intro acc used; simp [flattenTops]
  | cons s rest ih =>
      intro acc used
      rw [List.foldl_cons]
      by_cases h : used.length < 3
      · have hstep : multiDocStep rc (acc, used) s = (acc ++ topTwo rc s, used ++ [s]) := by
          rw [multiDocStep, if_pos h]
        rw [hstep, ih]
        have h3 : 3 - used.length = (3 - (used.length + 1)) + 1 := by omega
        rw [h3, List.take_succ_cons, flattenTops]
        simp [List.append_assoc, List.length_append]
      · have hstep : multiDocStep rc (acc, used) s = (acc, used) := by
          rw [multiDocStep, if_neg h]
        rw [hstep, ih]
        have h0 : 3 - used.length = 0 := by omega
        simp [h0, flattenTops]

theorem multiDocLoop_eq (rc : List ScoredChunk) :
    multiDocLoop rc =
      (flattenTops rc ((multiDocOrder rc).take 3), (multiDocOrder rc).take 3) := by
  rw [multiDocLoop, multiDoc_fold_eq]
  simp

theorem topTwo_source (rc : List ScoredChunk) (s : String) :
    ∀ c ∈ topTwo rc s, c.source = s := by
  intro c hc
  rw [topTwo] at hc
  rcases List.mem_map.mp hc with ⟨p, hp, hpc⟩
  have hp2 : p ∈ sortByKey (Prod.snd (β := Score)) (groupFor rc s) :=
    List.mem_of_mem_take hp
  have hp3 : p ∈ groupFor rc s := (sortByKey_perm _ _).mem_iff.mp hp2
  have hps : p.1.source == s := (List.mem_filter.mp hp3).2
  rw [← hpc]
  exact eq_of_beq hps

theorem topTwo_len (rc : List ScoredChunk) (s : String) : (topTwo rc s).length ≤ 2 := by
  rw [topTwo, List.length_map]
  exact le_trans (List.length_take_le 2 _) (le_refl 2)

theorem mem_flattenTops (rc : List ScoredChunk) :
    ∀ (srcs : List String), ∀ c ∈ flattenTops rc srcs, c.source ∈ srcs := by
  intro srcs
  induction srcs with
  | nil => intro c hc; exact absurd hc (List.not_mem_nil c)
  | cons t rest ih =>
      intro c hc
      rcases List.mem_append.mp hc with h | h
      · rw [topTwo_source rc t c h]
        exact List.mem_cons_self _ _
      · exact List.mem_cons_of_mem _ (ih c h)

theorem flattenTops_filter_le_two (rc : List ScoredChunk) :
    ∀ (srcs : List String), srcs.Nodup → ∀ s : String,
      ((flattenTops rc srcs).filter (fun c => c.source == s)).length ≤ 2 := by
  intro srcs
  induction srcs with
  | nil => intro _ s; simp [flattenTops]
  | cons t rest ih =>
      intro hnd s
      rcases List.nodup_cons.mp hnd with ⟨ht, hrest⟩
      rw [flattenTops, List.filter_append, List.length_append]
      by_cases hts : t = s
      · have hrest0 : (flattenTops rc rest).filter (fun c => c.source == s) = [] := by
          rw [List.filter_eq_nil_iff]
          intro c hc hcs
          have : c.source ∈ rest := mem_flattenTops rc rest c hc
          rw [eq_of_beq hcs, ← hts] at this
          exact ht this
        rw [hrest0]
        simp only [List.length_nil, Nat.add_zero]
        exact le_trans (List.length_filter_le _ _) (topTwo_len rc t)
      · have htop0 : (topTwo rc t).filter (fun c => c.source == s) = [] := by
          rw [List.filter_eq_nil_iff]
          intro c hc hcs
          exact hts ((topTwo_source rc t c hc) ▸ eq_of_beq hcs)
        rw [htop0]
        simp only [List.length_nil, Nat.zero_add]
        exact ih hrest s

theorem chunksFor_source (rc : List ScoredChunk) (s : String) :
    ∀ c ∈ chunksFor rc s, c.source = s := by
  intro c hc
  rcases List.mem_map.mp hc with ⟨p, hp, hpc⟩
  have hps : p.1.source == s := (List.mem_filter.mp hp).2
  rw [← hpc]
  exact eq_of_beq hps

theorem chunksFor_sublist (rc : List ScoredChunk) (s : String) :
    List.Sublist (chunksFor rc s) (rc.map Prod.fst) :=
  List.Sublist.map Prod.fst (List.filter_sublist rc)

/-- C1: for every query and limit `k ≥ 1` with a nonempty over-fetched
batch, the `best_match` strategy of `smart_document_search` over-fetches
`k*5` scored chunks, groups them by source, selects as `primary_source`
a source of lowest arithmetic-mean score, returns at most `k` chunks all
of that source in their original relative order within the batch, and
returns `document_scores` mapping every observed source to its mean
score. -/
theorem best_match_selects_lowest_mean_source
    (search : String → ℕ → List ScoredChunk) (query : String) (k : ℕ)
    (_hk : 1 ≤ k) (hne : search query (k * 5) ≠ []) :
    BestMatchSpec search query k := by
  have hmapne : (search query (k * 5)).map (fun c => c.1.source) ≠ [] := by
    intro h
    exact hne (List.map_eq_nil_iff.mp h)
  have hsrcs : dedupKeys ((search query (k * 5)).map (fun c => c.1.source)) ≠ [] :=
    dedupKeys_ne_nil _ hmapne
  obtain ⟨x, xs, hxs⟩ := List.exists_cons_of_ne_nil hsrcs
  refine ⟨{ chunks := (chunksFor (search query (k * 5))
              (foldPickMin (fun s => mean (scoresFor (search query (k * 5)) s)) x xs)).take k
            strategy_used := "best_match"
            primary_source := some (foldPickMin
              (fun s => mean (scoresFor (search query (k * 5)) s)) x xs)
            document_scores := some ((dedupKeys ((search query (k * 5)).map
              (fun c => c.1.source))).map
              (fun s => (s, mean (scoresFor (search query (k * 5)) s)))) },
    foldPickMin (fun s => mean (scoresFor (search query (k * 5)) s)) x xs,
    ?_, rfl, rfl, ?_, ?_, rfl, ?_, ?_, ?_, ?_⟩
  · have hfind : firstMinBy (fun s => mean (scoresFor (search query (k * 5)) s))
        (dedupKeys ((search query (k * 5)).map (fun c => c.1.source))) =
        some (foldPickMin (fun s => mean (scoresFor (search query (k * 5)) s)) x xs) := by
      rw [hxs]
      rfl
    simp only [smart_document_search, beq_self_eq_true, if_true]
    rw [hfind]
  · rw [← mem_dedupKeys, hxs]
    exact foldPickMin_mem _ xs x
  · intro s hs
    have hs2 : s ∈ x :: xs := by
      rw [← hxs, mem_dedupKeys]
      exact hs
    exact foldPickMin_le (fun s => mean (scoresFor (search query (k * 5)) s)) xs x s hs2
  · exact List.length_take_le k _
  · intro c hc
    exact chunksFor_source _ _ c (List.mem_of_mem_take hc)
  · exact List.Sublist.trans (List.take_sublist k _) (chunksFor_sublist _ _)
  · refine ⟨_, rfl, ?_, ?_⟩
    · rw [List.map_map]
      exact List.map_id' _
    · intro p hp
      rcases List.mem_map.mp hp with ⟨s, hs, hsp⟩
      rw [← hsp]

/-- Witness for C1: evaluating the theorem at the concrete batch
`egSearch` with `k = 1`; the mean scores there are `B ↦ 7/2`, `A ↦ 2`,
`C ↦ 4`, so the selected source is `A`. -/
theorem best_match_selects_lowest_mean_source_witness :
    (1 ≤ 1 ∧ egSearch "q" (1 * 5) ≠ []) ∧ BestMatchSpec egSearch "q" 1 :=
  ⟨⟨le_refl 1, by decide⟩,
    best_match_selects_lowest_mean_source egSearch "q" 1 (le_refl 1) (by decide)⟩

/-- C2: for every query and limit `k ≥ 1`, the `multi_doc` strategy of
`smart_document_search` over-fetches `k*3` scored chunks, groups them by
source, orders the distinct sources ascending by group-minimum score,
takes the top-two chunks (ascending by score) of each source in that
order until at most three distinct sources have contributed, truncates
the combined list to `k` chunks, and reports the ordered contributing
sources in `sources_used`; in particular each source contributes at most
two chunks. -/
theorem multi_doc_groups_top_sources
    (search : String → ℕ → List ScoredChunk) (query : String) (k : ℕ)
    (_hk : 1 ≤ k) : MultiDocSpec search query k := by
  refine ⟨{ chunks := (multiDocLoop (search query (k * 3))).1.take k
            strategy_used := "multi_doc"
            sources_used := some (multiDocLoop (search query (k * 3))).2 },
    (multiDocLoop (search query (k * 3))).2,
    rfl, rfl, rfl, ?_, ?_, ?_, ?_, ?_, ?_, ?_, ?_⟩
  · rw [multiDocLoop_eq, List.length_take, multiDocOrder,
      (sortByKey_perm (srcMin (search query (k * 3))) _).length_eq]
  · rw [multiDocLoop_eq]
    exact List.Nodup.sublist (List.take_sublist 3 _)
      ((sortByKey_perm _ _).nodup_iff.mpr (nodup_dedupKeys _))
  · intro s hs
    rw [multiDocLoop_eq] at hs
    have h2 : s ∈ multiDocOrder (search query (k * 3)) := List.mem_of_mem_take hs
    have h3 : s ∈ dedupKeys ((search query (k * 3)).map (fun c => c.1.source)) :=
      (sortByKey_perm _ _).mem_iff.mp h2
    exact (mem_dedupKeys _ s).mp h3
  · rw [multiDocLoop_eq]
    exact List.Pairwise.sublist (List.take_sublist 3 _)
      (sortByKey_pairwise (srcMin (search query (k * 3))) _)
  · rw [multiDocLoop_eq]
  · exact List.length_take_le k _
  · intro s
    have hnd : (multiDocLoop (search query (k * 3))).2.Nodup := by
      rw [multiDocLoop_eq]
      exact List.Nodup.sublist (List.take_sublist 3 _)
        ((sortByKey_perm _ _).nodup_iff.mpr (nodup_dedupKeys _))
    have hsub : List.Sublist ((multiDocLoop (search query (k * 3))).1.take k)
        (flattenTops (search query (k * 3)) (multiDocLoop (search query (k * 3))).2) := by
      rw [multiDocLoop_eq]
      exact List.take_sublist k _
    refine le_trans (List.Sublist.length_le (List.Sublist.filter _ hsub)) ?_
    exact flattenTops_filter_le_two _ _ hnd s
  · intro c hc
    have hc2 : c ∈ flattenTops (search query (k * 3)) (multiDocLoop (search query (k * 3))).2 := by
      rw [multiDocLoop_eq] at hc ⊢
      exact List.mem_of_mem_take hc
    exact mem_flattenTops _ _ c hc2

/-- Witness for C2: evaluating the theorem at `egSearchFour`, whose
batch holds chunks from four distinct sources, with `k = 5`; only the
three best sources `A`, `B`, `C` contribute, two chunks each at most. -/
theorem multi_doc_groups_top_sources_witness :
    (1 ≤ 5 ∧ MultiDocSpec egSearchFour "q" 5) ∧
      smart_document_search egSearchFour "q" 5 "multi_doc" =
        Except.ok { chunks := [chA1, chA2, chB1, chB2, chC1]
                    strategy_used := "multi_doc"
                    sources_used := some ["A", "B", "C"] } :=
  ⟨⟨by decide, multi_doc_groups_top_sources egSearchFour "q" 5 (by decide)⟩, by decide⟩

theorem smart_document_search_else
    (search : String → ℕ → List ScoredChunk) (query : String) (k : ℕ) (strategy : String)
    (h1 : strategy ≠ "best_match") (h2 : strategy ≠ "multi_doc") :
    smart_document_search search query k strategy =
      match mostCommonSource (((search query k).map Prod.fst).map Chunk.source) with
      | none => Except.error "IndexError: list index out of range"
      | some src =>
          Except.ok
            { chunks := ((search query k).map Prod.fst).filter (fun d => d.source == src)
              strategy_used := "single_source"
              primary_source := some src } := by
  have hb1 : (strategy == "best_match") = false := beq_eq_false_iff_ne.mpr h1
  have hb2 : (strategy == "multi_doc") = false := beq_eq_false_iff_ne.mpr h2
  have hc1 : ¬((strategy == "best_match") = true) := by
    rw [hb1]
    exact Bool.false_ne_true
  have hc2 : ¬((strategy == "multi_doc") = true) := by
    rw [hb2]
    exact Bool.false_ne_true
  unfold smart_document_search
  rw [if_neg hc1, if_neg hc2]

/-- C4: for every nonempty fetched batch, the `single_source` strategy
of `smart_document_search` fetches exactly the requested limit `k`,
sets `primary_source` to the source with the highest occurrence count
among the fetched chunks (ties broken by first-encountered order), and
returns exactly the fetched chunks of that source, in their original
order. -/
theorem single_source_picks_most_common
    (search : String → ℕ → List ScoredChunk) (query : String) (k : ℕ)
    (hne : search query k ≠ []) :
    SingleSourceSpec search query k "single_source" := by
  have hdocs : ((search query k).map Prod.fst).map Chunk.source ≠ [] := by
    intro h
    exact hne (List.map_eq_nil_iff.mp (List.map_eq_nil_iff.mp h))
  obtain ⟨x, xs, hxs⟩ := List.exists_cons_of_ne_nil (dedupKeys_ne_nil _ hdocs)
  have hmc : mostCommonSource (((search query k).map Prod.fst).map Chunk.source) =
      some (foldPickMax (countOf (((search query k).map Prod.fst).map Chunk.source)) x xs) := by
    rw [mostCommonSource, hxs]
  refine ⟨{ chunks := ((search query k).map Prod.fst).filter (fun d =>
              d.source == foldPickMax
                (countOf (((search query k).map Prod.fst).map Chunk.source)) x xs)
            strategy_used := "single_source"
            primary_source := some (foldPickMax
              (countOf (((search query k).map Prod.fst).map Chunk.source)) x xs) },
    foldPickMax (countOf (((search query k).map Prod.fst).map Chunk.source)) x xs,
    ?_, rfl, rfl, ?_, rfl, ?_, ?_⟩
  · rw [smart_document_search_else search query k "single_source" (by decide) (by decide), hmc]
  · obtain ⟨pre, post, hdec, hpre, hpost⟩ :=
      foldPickMax_split (countOf (((search query k).map Prod.fst).map Chunk.source)) xs x
    refine ⟨pre, post, ?_, hpre, hpost⟩
    rw [hxs]
    exact hdec
  · intro c hc
    exact eq_of_beq (List.mem_filter.mp hc).2
  · exact List.filter_sublist _

/-- Witness for C4: evaluating the theorem at `egSearchCount`, whose
batch draws chunks from sources `{A: 3, B: 2}`; the result's
`primary_source` is `A` and every returned chunk has source `A`. -/
theorem single_source_picks_most_common_witness :
    (egSearchCount "q" 5 ≠ [] ∧ SingleSourceSpec egSearchCount "q" 5 "single_source") ∧
      smart_document_search egSearchCount "q" 5 "single_source" =
        Except.ok { chunks := [chA1, chA2, ⟨"alpha three", "A"⟩]
                    strategy_used := "single_source"
                    primary_source := some "A" } :=
  ⟨⟨by decide, single_source_picks_most_common egSearchCount "q" 5 (by decide)⟩, by decide⟩

/-- Counterexample to C5 as stated: an unknown strategy name is not
error-free — when the underlying search returns zero chunks, the
`single_source` fallback raises (`most_common(1)[0]` on an empty
`Counter`), so the caller does get an error. -/
theorem unknown_strategy_error_cex :
    smart_document_search egSearchEmpty "q" 3 "bogus" =
      Except.error "IndexError: list index out of range" := by decide

/-- C5 amended: any strategy name other than `best_match` and
`multi_doc` yields output identical to `single_source` on the same
input — including the same error when the fetched batch is empty; the
engine never rejects a strategy name as such. -/
theorem unknown_strategy_falls_back
    (search : String → ℕ → List ScoredChunk) (query : String) (k : ℕ) (strategy : String)
    (h1 : strategy ≠ "best_match") (h2 : strategy ≠ "multi_doc") :
    smart_document_search search query k strategy =
      smart_document_search search query k "single_source" := by
  rw [smart_document_search_else search query k strategy h1 h2,
    smart_document_search_else search query k "single_source" (by decide) (by decide)]

/-- Witness for the amended C5: the unknown strategy name `bogus`
behaves exactly as `single_source` on the concrete batch `egSearch`. -/
theorem unknown_strategy_falls_back_witness :
    ("bogus" ≠ "best_match" ∧ "bogus" ≠ "multi_doc") ∧
      smart_document_search egSearch "q" 2 "bogus" =
        smart_document_search egSearch "q" 2 "single_source" :=
  ⟨⟨by decide, by decide⟩,
    unknown_strategy_falls_back egSearch "q" 2 "bogus" (by decide) (by decide)⟩

/-- Counterexample to C3 as stated: with zero retrieved chunks the
`best_match` strategy raises (Python `min()` over the empty dict of
per-source scores) instead of returning an empty result. -/
theorem empty_search_error_cex :
    smart_document_search egSearchEmpty "q" 1 "best_match" =
      Except.error "ValueError: min() arg is an empty sequence" := by decide

/-- C3 amended: when the underlying search returns zero chunks, only
the `multi_doc` strategy returns without error — with empty `chunks`
and `sources_used` present but empty — while `best_match`,
`single_source` and every unknown strategy name raise an error (an
empty-sequence `min()` or an out-of-range index on the empty
`Counter`). -/
theorem empty_search_behavior
    (search : String → ℕ → List ScoredChunk) (query : String) (k : ℕ) (strategy : String)
    (hs : ∀ n, search query n = []) :
    smart_document_search search query k "multi_doc" =
      Except.ok { chunks := [], strategy_used := "multi_doc", sources_used := some [] } ∧
    (strategy ≠ "multi_doc" → ∃ e, smart_document_search search query k strategy =
      Except.error e) := by
  constructor
  · have h1 : smart_document_search search query k "multi_doc" =
        Except.ok { chunks := (multiDocLoop (search query (k * 3))).1.take k
                    strategy_used := "multi_doc"
                    sources_used := some (multiDocLoop (search query (k * 3))).2 } := rfl
    rw [h1, hs (k * 3)]
    rw [show multiDocLoop ([] : List ScoredChunk) = ([], []) from rfl]
    simp
  · intro hne
    by_cases hb : strategy = "best_match"
    · refine ⟨"ValueError: min() arg is an empty sequence", ?_⟩
      subst hb
      have h1 : smart_document_search search query k "best_match" =
          (match firstMinBy (fun s => mean (scoresFor (search query (k * 5)) s))
              (dedupKeys ((search query (k * 5)).map (fun c => c.1.source))) with
           | none => Except.error "ValueError: min() arg is an empty sequence"
           | some best =>
               Except.ok
                 { chunks := (chunksFor (search query (k * 5)) best).take k
                   strategy_used := "best_match"
                   primary_source := some best
                   document_scores := some ((dedupKeys ((search query (k * 5)).map
                     (fun c => c.1.source))).map
                     (fun s => (s, mean (scoresFor (search query (k * 5)) s)))) }) := rfl
      rw [h1, hs (k * 5)]
      rfl
    · refine ⟨"IndexError: list index out of range", ?_⟩
      rw [smart_document_search_else search query k strategy hb hne, hs k]
      rfl

/-- Witness for the amended C3: evaluating the theorem at the stub
store that returns no chunks; `multi_doc` answers with empty chunks and
empty `sources_used`, `single_source` raises. -/
theorem empty_search_behavior_witness :
    smart_document_search egSearchEmpty "q" 2 "multi_doc" =
        Except.ok { chunks := [], strategy_used := "multi_doc", sources_used := some [] } ∧
      ∃ e, smart_document_search egSearchEmpty "q" 2 "single_source" = Except.error e := by
  have h := empty_search_behavior egSearchEmpty "q" 2 "single_source" (fun _ => rfl)
  exact ⟨h.1, h.2 (by decide)⟩

/-- C10: `sources_used` of the `multi_doc` strategy is fixed before the
final truncation of the chunk list to `k`: it is always the first
`min 3 _` sources of the ascending-minimum-score order of the fetched
batch, so it does not depend on the truncation — two limits whose
over-fetched batches coincide report identical `sources_used`. -/
theorem multi_doc_sources_before_truncation
    (search : String → ℕ → List ScoredChunk) (query : String) (k k' : ℕ)
    (hsame : search query (k * 3) = search query (k' * 3)) :
    ∃ r r', smart_document_search search query k "multi_doc" = Except.ok r ∧
      smart_document_search search query k' "multi_doc" = Except.ok r' ∧
      r.sources_used = some ((multiDocOrder (search query (k * 3))).take 3) ∧
      r'.sources_used = r.sources_used := by
  refine ⟨{ chunks := (multiDocLoop (search query (k * 3))).1.take k
            strategy_used := "multi_doc"
            sources_used := some (multiDocLoop (search query (k * 3))).2 },
    { chunks := (multiDocLoop (search query (k' * 3))).1.take k'
      strategy_used := "multi_doc"
      sources_used := some (multiDocLoop (search query (k' * 3))).2 },
    rfl, rfl, ?_, ?_⟩
  · rw [multiDocLoop_eq]
  · rw [hsame]

/-- Witness for C10: at `egSearchTwo` with limits `1` and `7` (same
constant batch), `sources_used` is `[A, B]` in both cases even though
with `k = 1` the returned chunk list `[chA1]` holds no chunk of source
`B`. -/
theorem multi_doc_sources_before_truncation_witness :
    (∃ r r', smart_document_search egSearchTwo "q" 1 "multi_doc" = Except.ok r ∧
        smart_document_search egSearchTwo "q" 7 "multi_doc" = Except.ok r' ∧
        r.sources_used = some ((multiDocOrder (egSearchTwo "q" (1 * 3))).take 3) ∧
        r'.sources_used = r.sources_used) ∧
      smart_document_search egSearchTwo "q" 1 "multi_doc" =
        Except.ok { chunks := [chA1]
                    strategy_used := "multi_doc"
                    sources_used := some ["A", "B"] } ∧
      ∀ c ∈ [chA1], c.source ≠ "B" :=
  ⟨multi_doc_sources_before_truncation egSearchTwo "q" 1 7 rfl, by decide, by decide⟩

theorem buildContext_append :
    ∀ (as bs : List Chunk), as ≠ [] → bs ≠ [] →
      buildContext (as ++ bs) = buildContext as ++ "\n\n" ++ buildContext bs := by
  intro as
  induction as with
  | nil => intro bs h _; exact absurd rfl h
  | cons c as' ih =>
      intro bs _ hb
      cases as' with
      | nil =>
          obtain ⟨b, bs', hbs⟩ := List.exists_cons_of_ne_nil hb
          subst hbs
          simp [buildContext, String.append_assoc]
      | cons a as'' =>
          have h2 := ih bs (List.cons_ne_nil a as'') hb
          simp only [List.cons_append] at h2 ⊢
          rw [show buildContext (c :: a :: (as'' ++ bs)) =
              c.content ++ "\n\n" ++ buildContext (a :: (as'' ++ bs)) from rfl,
            show buildContext (c :: a :: as'') =
              c.content ++ "\n\n" ++ buildContext (a :: as'') from rfl,
            h2]
          simp [String.append_assoc]

/-- C7: answer synthesis builds its context by concatenating the chunk
contents in the order given, separated by a paragraph break, and never
raises — a failing completion call makes `ask_azure_openai` return a
human-readable error string as if it were the answer, while a
successful call's text is returned untouched. -/
theorem ask_azure_openai_never_raises
    (complete : String → Except String String) (query : String)
    (chunks as bs : List Chunk) (e ans : String)
    (ha : as ≠ []) (hb : bs ≠ []) :
    buildContext (as ++ bs) = buildContext as ++ "\n\n" ++ buildContext bs ∧
    (complete (promptFor query chunks) = Except.error e →
      ask_azure_openai complete query chunks = "Error generating response: " ++ e) ∧
    (complete (promptFor query chunks) = Except.ok ans →
      ask_azure_openai complete query chunks = ans) := by
  refine ⟨buildContext_append as bs ha hb, ?_, ?_⟩
  · intro h
    unfold ask_azure_openai
    rw [h]
  · intro h
    unfold ask_azure_openai
    rw [h]

/-- Witness for C7: the context of two concrete chunks is their
contents joined by a paragraph break, and with a completion stub that
always fails the synthesized answer is the embedded error string. -/
theorem ask_azure_openai_never_raises_witness :
    buildContext ([chA1] ++ [chB1]) = buildContext [chA1] ++ "\n\n" ++ buildContext [chB1] ∧
      ask_azure_openai egCompleteErr "q" [chA1, chB1] = "Error generating response: " ++ "timeout" := by
  have h := ask_azure_openai_never_raises egCompleteErr "q" [chA1, chB1] [chA1] [chB1]
    "timeout" "unused" (by decide) (by decide)
  exact ⟨h.1, h.2.1 rfl⟩

/-- C8: the video-id parser is a deterministic function on URLs: on the
`www.youtube.com`/`youtube.com` host family it returns the value of the
`v` query parameter, on host `youtu.be` it returns the path segment,
and on every URL whose host is none of these it fails with the
invalid-URL error. -/
theorem extract_video_id_spec (url v : String) :
    ((((urlparse url).hostname = some "www.youtube.com" ∨
        (urlparse url).hostname = some "youtube.com") →
      (parse_qs (urlparse url).query).find? (fun kv => kv.1 == "v") = some ("v", v) →
      extract_video_id url = Except.ok v)) ∧
    ((urlparse url).hostname = some "youtu.be" →
      extract_video_id url = Except.ok (String.mk ((urlparse url).path.data.drop 1))) ∧
    ((urlparse url).hostname ≠ some "www.youtube.com" →
      (urlparse url).hostname ≠ some "youtube.com" →
      (urlparse url).hostname ≠ some "youtu.be" →
      extract_video_id url = Except.error ("Could not extract video ID from URL: " ++ url)) := by
  refine ⟨?_, ?_, ?_⟩
  · intro hh hfind
    unfold extract_video_id
    rw [if_pos hh, hfind]
  · intro hbe
    have h1 : ¬((urlparse url).hostname = some "www.youtube.com" ∨
        (urlparse url).hostname = some "youtube.com") := by
      rw [hbe]
      rintro (h | h)
      · exact absurd (Option.some.inj h) (by decide)
      · exact absurd (Option.some.inj h) (by decide)
    unfold extract_video_id
    rw [if_neg h1, if_pos hbe]
  · intro h1 h2 h3
    have hor : ¬((urlparse url).hostname = some "www.youtube.com" ∨
        (urlparse url).hostname = some "youtube.com") := fun h => h.elim h1 h2
    unfold extract_video_id
    rw [if_neg hor, if_neg h3]

/-- Witness for C8: `https://www.youtube.com/watch?v=XYZ` and
`https://youtu.be/XYZ` both yield video id `XYZ`, and a non-YouTube
host fails with the invalid-URL error. -/
theorem extract_video_id_spec_witness :
    extract_video_id "https://www.youtube.com/watch?v=XYZ" = Except.ok "XYZ" ∧
      extract_video_id "https://youtu.be/XYZ" = Except.ok "XYZ" ∧
      extract_video_id "https://example.com/watch?v=XYZ" =
        Except.error ("Could not extract video ID from URL: " ++
          "https://example.com/watch?v=XYZ") := by
  have h1 := (extract_video_id_spec "https://www.youtube.com/watch?v=XYZ" "XYZ").1
    (Or.inl (by decide)) (by decide)
  have h2 := (extract_video_id_spec "https://youtu.be/XYZ" "XYZ").2.1 (by decide)
  have h3 := (extract_video_id_spec "https://example.com/watch?v=XYZ" "XYZ").2.2
    (by decide) (by decide) (by decide)
  refine ⟨h1, ?_, h3⟩
  rw [h2]
  decide

/-- Counterexample to C9 as stated: when the underlying broad search
fails, `get_available_documents` swallows the exception and returns an
empty list, so the documents-listing endpoint reports a successful
empty listing instead of surfacing the failure. -/
theorem list_documents_swallows_error_cex :
    list_documents (Except.error "connection refused") =
      Except.ok { documents := [], count := 0 } := by decide

/-- C9 amended: a failure of the underlying vector-store search is
caught inside `get_available_documents`, which returns the empty list;
the `/documents/` endpoint therefore reports a successful empty listing
— it never produces a failure response. -/
theorem list_documents_never_fails (e : String) :
    get_available_documents (Except.error e) = [] ∧
    list_documents (Except.error e) = Except.ok { documents := [], count := 0 } ∧
    ∀ bigSearch : Except String (List Chunk),
      ∃ resp, list_documents bigSearch = Except.ok resp := by
  refine ⟨rfl, rfl, ?_⟩
  intro bigSearch
  exact ⟨_, rfl⟩

/-- Counterexample to C6 as stated: with `content_type = "pdf"`, a
store containing one PDF source, and a retrieval batch consisting of a
video-source chunk, the response's `primary_source` is the video source
— the content-type filter did not scope retrieval, so a source of the
other type contributed the retrieved chunks. -/
theorem content_filter_not_applied_cex :
    contentFiltered "pdf" (get_available_documents egBig) = ["a.pdf"] ∧
      smart_query_all_content egBig egSearchVideo egCompleteOk "q" 1 "single_source" "pdf" =
        Except.ok { answer := "ANSWER"
                    strategy_used := "single_source"
                    content_type := "pdf"
                    chunks_used := some 1
                    primary_source := some "video_x.txt"
                    source_type := some "video" } := by
  exact ⟨by decide, by decide⟩

/-- C6 amended: the orchestrator computes the content-type filter (the
`video_` source-prefix rule) only to decide whether any content of the
requested type exists: when the filtered source list is empty it
returns the no-content response without invoking retrieval or synthesis
(the response is a fixed record, the same for every store and
completion stub); otherwise it invokes retrieval unscoped over the
whole collection, so the retrieved chunks and `primary_source` may come
from sources of the other content type. -/
theorem smart_query_all_content_filter_only_gates
    (bigSearch : Except String (List Chunk)) (query : String) (k : ℕ)
    (strategy content_type : String) :
    (contentFiltered content_type (get_available_documents bigSearch) = [] →
      ∀ (search : String → ℕ → List ScoredChunk) (complete : String → Except String String),
        smart_query_all_content bigSearch search complete query k strategy content_type =
          Except.ok { answer := "No " ++ content_type ++ " content found in the database."
                      strategy_used := strategy
                      content_type := content_type }) ∧
    (∀ (search : String → ℕ → List ScoredChunk) (complete : String → Except String String)
        (sr : RetrievalResult),
      contentFiltered content_type (get_available_documents bigSearch) ≠ [] →
      smart_document_search search query k strategy = Except.ok sr →
      sr.chunks ≠ [] →
      smart_query_all_content bigSearch search complete query k strategy content_type =
        Except.ok { answer := ask_azure_openai complete query sr.chunks
                    strategy_used := sr.strategy_used
                    content_type := content_type
                    chunks_used := some sr.chunks.length
                    primary_source := sr.primary_source
                    source_type := sr.primary_source.map
                      (fun s => if strStartsWith s "video_" then "video" else "pdf")
                    sources_used := sr.sources_used
                    source_scores := sr.document_scores }) := by
  constructor
  · intro hf search complete
    simp only [smart_query_all_content]
    rw [hf]
    rfl
  · intro search complete sr hf hsr hc
    have h1 : ¬((contentFiltered content_type
        (get_available_documents bigSearch)).isEmpty = true) := by
      intro h
      exact hf (List.isEmpty_iff.mp h)
    have h2 : ¬(sr.chunks.isEmpty = true) := by
      intro h
      exact hc (List.isEmpty_iff.mp h)
    simp only [smart_query_all_content]
    rw [if_neg h1, hsr]
    simp only []
    rw [if_neg h2]

/-- Witness for the amended C6: with only a PDF source stored, a
`video`-scoped query short-circuits to the no-content response; with a
PDF source stored and a video-only retrieval batch, a `pdf`-scoped
query still reports the video source. -/
theorem smart_query_all_content_filter_only_gates_witness :
    smart_query_all_content egBigPdfOnly egSearchVideo egCompleteOk "q" 1 "single_source"
        "video" =
      Except.ok { answer := "No " ++ "video" ++ " content found in the database."
                  strategy_used := "single_source"
                  content_type := "video" } ∧
    smart_query_all_content egBig egSearchVideo egCompleteOk "q" 1 "single_source" "pdf" =
      Except.ok { answer := ask_azure_openai egCompleteOk "q" [chV1]
                  strategy_used := "single_source"
                  content_type := "pdf"
                  chunks_used := some [chV1].length
                  primary_source := some "video_x.txt"
                  source_type := (some "video_x.txt").map
                    (fun s => if strStartsWith s "video_" then "video" else "pdf")
                  sources_used := none
                  source_scores := none } := by
  constructor
  · exact (smart_query_all_content_filter_only_gates egBigPdfOnly "q" 1 "single_source"
      "video").1 (by decide) egSearchVideo egCompleteOk
  · exact (smart_query_all_content_filter_only_gates egBig "q" 1 "single_source" "pdf").2
      egSearchVideo egCompleteOk
      { chunks := [chV1], strategy_used := "single_source", primary_source := some "video_x.txt" }
      (by decide) (by decide) (by decide)

end AskPdf
